import Mathlib

/-!
Verification of the vigilo core: the per-instance state store
(`packages/core/src/store.ts`), state hydration (`state.ts`), the
localStorage and REST-API storage adapters (`packages/core/src/storage.ts`,
api adapter), and the React hook connection helpers
(`src/react/use-vigilo-instance.ts`).

JS values are embedded shallowly: numbers as `ℚ` (no float arithmetic is
performed on them, only comparisons and storage), `Map<number,TodoStatus>`
as an insertion-ordered association list with JS `Map.set` semantics,
`Partial<T>` as a structure of `Option` fields (an absent key and an
explicitly-`undefined` key are identified), and JS exceptions as `Except`
with `try/catch` embedded as a `match` on the `Except`.
-/

namespace Vigilo

/-- A 2D position, `types.ts` `Pos`. -/
structure Pos where
  x : ℚ
  y : ℚ
deriving DecidableEq, Repr

/-- Source type `TodoStatus` (`types.ts`). -/
inductive TodoStatus
  | todo
  | working
  | done
deriving DecidableEq, Repr

/-- Source type `DisplayMode` (`types.ts`). -/
inductive DisplayMode
  | full
  | compact
  | minimal
deriving DecidableEq, Repr

/-- Source type `Connection` (`types.ts`): `todoIndex` plus optional `targetSelector`,
`targetLabel`, `targetPosition` (optionality embedded as `Option`). -/
structure Connection where
  todoIndex : Int
  targetSelector : Option String
  targetLabel : Option String
  targetPosition : Option Pos
deriving DecidableEq, Repr

/-- A JS `Map<Int, α>` as an insertion-ordered association list. -/
def StatusMap := List (Int × TodoStatus)
deriving DecidableEq, Repr

/-- JS `Map.prototype.set`: replace the value at an existing key in place,
otherwise append the new entry at the end. -/
def mapSet (m : List (Int × TodoStatus)) (k : Int) (v : TodoStatus) :
    List (Int × TodoStatus) :=
  if m.any (fun p => p.1 = k) then
    m.map (fun p => if p.1 = k then (k, v) else p)
  else
    m ++ [(k, v)]

/-- JS `Map.prototype.get` on the association-list model. -/
def mapGet (m : List (Int × TodoStatus)) (k : Int) : Option TodoStatus :=
  (m.find? (fun p => p.1 = k)).map (fun p => p.2)

/-- Source type `VigiloState` (`types.ts`). -/
structure VigiloState where
  position : Pos
  connections : List Connection
  displayMode : DisplayMode
  isHidden : Bool
  showLines : Bool
  showBadges : Bool
  lineColor : String
  lineOpacity : ℚ
  componentOpacity : ℚ
  statuses : List (Int × TodoStatus)
deriving DecidableEq, Repr

/-- Model of `Partial<VigiloState>`, each slice optional. -/
structure PartialVigiloState where
  position : Option Pos := none
  connections : Option (List Connection) := none
  displayMode : Option DisplayMode := none
  isHidden : Option Bool := none
  showLines : Option Bool := none
  showBadges : Option Bool := none
  lineColor : Option String := none
  lineOpacity : Option ℚ := none
  componentOpacity : Option ℚ := none
  statuses : Option (List (Int × TodoStatus)) := none
deriving DecidableEq, Repr

def DEFAULT_POSITION : Pos := ⟨20, 20⟩
def DEFAULT_LINE_COLOR : String := "#3b82f6"
def DEFAULT_LINE_OPACITY : ℚ := 6/10
def DEFAULT_COMPONENT_OPACITY : ℚ := 1

/-- Source function `createDefaultState` (`state.ts`): each slice taken from `overrides` when
present, otherwise the default (copies `{...}` / `new Map(...)` are value
identities in the model). -/
def createDefaultState (overrides : PartialVigiloState) : VigiloState where
  position := overrides.position.getD DEFAULT_POSITION
  connections := overrides.connections.getD []
  displayMode := overrides.displayMode.getD .full
  isHidden := overrides.isHidden.getD false
  showLines := overrides.showLines.getD true
  showBadges := overrides.showBadges.getD true
  lineColor := overrides.lineColor.getD DEFAULT_LINE_COLOR
  lineOpacity := overrides.lineOpacity.getD DEFAULT_LINE_OPACITY
  componentOpacity := overrides.componentOpacity.getD DEFAULT_COMPONENT_OPACITY
  statuses := overrides.statuses.getD []

/-- The JS object spread `{...saved, ...overrides}` on two partial states:
field-wise, the overrides value when present, else the saved one. -/
def spreadMerge (saved overrides : PartialVigiloState) : PartialVigiloState where
  position := overrides.position.orElse (fun _ => saved.position)
  connections := overrides.connections.orElse (fun _ => saved.connections)
  displayMode := overrides.displayMode.orElse (fun _ => saved.displayMode)
  isHidden := overrides.isHidden.orElse (fun _ => saved.isHidden)
  showLines := overrides.showLines.orElse (fun _ => saved.showLines)
  showBadges := overrides.showBadges.orElse (fun _ => saved.showBadges)
  lineColor := overrides.lineColor.orElse (fun _ => saved.lineColor)
  lineOpacity := overrides.lineOpacity.orElse (fun _ => saved.lineOpacity)
  componentOpacity := overrides.componentOpacity.orElse (fun _ => saved.componentOpacity)
  statuses := overrides.statuses.orElse (fun _ => saved.statuses)

/-- Source function `hydrateState` (`state.ts`): `createDefaultState({...saved, ...overrides,
statuses: overrides?.statuses ?? saved.statuses})`, with `saved` the result
of `storage.loadState()`. -/
def hydrateState (saved overrides : PartialVigiloState) : VigiloState :=
  createDefaultState
    { spreadMerge saved overrides with
      statuses := overrides.statuses.orElse (fun _ => saved.statuses) }

/-! ### Store (`store.ts` `createVigiloStore`)

The observable effects of the store are modelled as a `StoreWorld`: the current
in-memory state, the ordered log of storage-adapter `save*` calls, and the
number of synchronous subscriber notifications (`emit`). -/

/-- One call to a storage adapter `save*` method. -/
inductive StorageOp
  | savePosition (p : Pos)
  | saveConnections (cs : List Connection)
  | saveDisplayMode (m : DisplayMode)
  | saveHidden (b : Bool)
  | saveShowLines (b : Bool)
  | saveShowBadges (b : Bool)
  | saveLineColor (c : String)
  | saveLineOpacity (q : ℚ)
  | saveComponentOpacity (q : ℚ)
  | saveStatuses (m : List (Int × TodoStatus))
deriving DecidableEq, Repr

/-- Observable store world: `state` plus the log of storage writes and the
count of subscriber notifications. -/
structure StoreWorld where
  state : VigiloState
  writes : List StorageOp
  emits : Nat
deriving DecidableEq, Repr

/-- Source function `setState` (`store.ts`): assign the new state and `emit()` to all
subscribers. -/
def setState (next : VigiloState) (w : StoreWorld) : StoreWorld :=
  { w with state := next, emits := w.emits + 1 }

/-- Source mutator `setPosition(position, options?)` (`store.ts`): update the `position`
slice, notify, and skip the storage write exactly when
`options?.persist === false`. -/
def setPosition (p : Pos) (persist : Option Bool) (w : StoreWorld) : StoreWorld :=
  let w1 := setState { w.state with position := p } w
  if persist = some false then w1
  else { w1 with writes := w1.writes ++ [StorageOp.savePosition p] }

/-- Source mutator `setConnections` (`store.ts`): store a copy of the given array verbatim
and persist it. -/
def setConnections (cs : List Connection) (w : StoreWorld) : StoreWorld :=
  let w1 := setState { w.state with connections := cs } w
  { w1 with writes := w1.writes ++ [StorageOp.saveConnections cs] }

/-- Source mutator `setDisplayMode` (`store.ts`). -/
def setDisplayMode (m : DisplayMode) (w : StoreWorld) : StoreWorld :=
  let w1 := setState { w.state with displayMode := m } w
  { w1 with writes := w1.writes ++ [StorageOp.saveDisplayMode m] }

/-- Source mutator `setHidden` (`store.ts`). -/
def setHidden (b : Bool) (w : StoreWorld) : StoreWorld :=
  let w1 := setState { w.state with isHidden := b } w
  { w1 with writes := w1.writes ++ [StorageOp.saveHidden b] }

/-- Source mutator `setShowLines` (`store.ts`). -/
def setShowLines (b : Bool) (w : StoreWorld) : StoreWorld :=
  let w1 := setState { w.state with showLines := b } w
  { w1 with writes := w1.writes ++ [StorageOp.saveShowLines b] }

/-- Source mutator `setShowBadges` (`store.ts`). -/
def setShowBadges (b : Bool) (w : StoreWorld) : StoreWorld :=
  let w1 := setState { w.state with showBadges := b } w
  { w1 with writes := w1.writes ++ [StorageOp.saveShowBadges b] }

/-- Source mutator `setLineColor` (`store.ts`). -/
def setLineColor (c : String) (w : StoreWorld) : StoreWorld :=
  let w1 := setState { w.state with lineColor := c } w
  { w1 with writes := w1.writes ++ [StorageOp.saveLineColor c] }

/-- Source mutator `setLineOpacity` (`store.ts`). -/
def setLineOpacity (q : ℚ) (w : StoreWorld) : StoreWorld :=
  let w1 := setState { w.state with lineOpacity := q } w
  { w1 with writes := w1.writes ++ [StorageOp.saveLineOpacity q] }

/-- Source mutator `setComponentOpacity` (`store.ts`). -/
def setComponentOpacity (q : ℚ) (w : StoreWorld) : StoreWorld :=
  let w1 := setState { w.state with componentOpacity := q } w
  { w1 with writes := w1.writes ++ [StorageOp.saveComponentOpacity q] }

/-- Source mutator `setStatuses` (`store.ts`): store a copy of the given map (`new Map(m)`
preserves entries and order) and persist the original. -/
def setStatuses (m : List (Int × TodoStatus)) (w : StoreWorld) : StoreWorld :=
  let w1 := setState { w.state with statuses := m } w
  { w1 with writes := w1.writes ++ [StorageOp.saveStatuses m] }

/-- Source mutator `setStatus(index, status)` (`store.ts`): copy the current statuses map,
`set` the one entry, and delegate to `setStatuses`. -/
def setStatus (index : Int) (status : TodoStatus) (w : StoreWorld) : StoreWorld :=
  setStatuses (mapSet w.state.statuses index status) w

/-- Source mutator `resetStatuses` (`store.ts`): `setStatuses(new Map())`. -/
def resetStatuses (w : StoreWorld) : StoreWorld :=
  setStatuses [] w

/-- The store world right after `createVigiloStore`: state is
`hydrateState(storage, overrides)` with no writes or notifications yet. -/
def initWorld (saved overrides : PartialVigiloState) : StoreWorld :=
  ⟨hydrateState saved overrides, [], 0⟩

/-! ### React hook connection helpers (`use-vigilo-instance.ts`) -/

/-- The `target` argument of `addConnection`: a CSS selector string, a DOM
element (represented by the results the DOM helpers `generateSelector` and
`getElementLabel` would return for it), or a freeroam position. -/
inductive AddTarget
  | selector (s : String)
  | element (generatedSelector : String) (elementLabel : String)
  | position (p : Pos)
deriving DecidableEq, Repr

/-- JS `a || b` on an optional string (`label || getElementLabel(target)`):
`b` when `a` is absent or the empty string (falsy). -/
def jsOrStr (a : Option String) (b : String) : String :=
  match a with
  | none => b
  | some s => if s = "" then b else s

/-- The `newConnection` built by `addConnection` from its target kind. -/
def newConnectionOf (todoIndex : Int) (target : AddTarget) (label : Option String) :
    Connection :=
  match target with
  | .selector s => ⟨todoIndex, some s, label, none⟩
  | .element sel lbl => ⟨todoIndex, some sel, some (jsOrStr label lbl), none⟩
  | .position p => ⟨todoIndex, none, label, some p⟩

/-- Source helper `addConnection(todoIndex, target, label?)` (`use-vigilo-instance.ts`):
build the new connection from the target kind, then replace the existing
entry with the same `todoIndex` in place if one exists, else append. -/
def addConnection (todoIndex : Int) (target : AddTarget) (label : Option String)
    (w : StoreWorld) : StoreWorld :=
  let currentConnections := w.state.connections
  let existingIndex := currentConnections.findIdx? (fun c => c.todoIndex = todoIndex)
  let nextConnections :=
    match existingIndex with
    | some i => currentConnections.set i (newConnectionOf todoIndex target label)
    | none => currentConnections ++ [newConnectionOf todoIndex target label]
  setConnections nextConnections w

/-- Source helper `removeConnection(todoIndex)` (`use-vigilo-instance.ts`). -/
def removeConnection (todoIndex : Int) (w : StoreWorld) : StoreWorld :=
  setConnections (w.state.connections.filter (fun c => ¬ c.todoIndex = todoIndex)) w

/-- The connections list holds at most one entry per `todoIndex`. -/
def NoDupIndex (cs : List Connection) : Prop :=
  cs.Pairwise (fun a b => a.todoIndex ≠ b.todoIndex)

instance : DecidablePred NoDupIndex := fun cs =>
  inferInstanceAs (Decidable (cs.Pairwise _))

/-! ### JSON values and the localStorage adapter (`storage.ts`)

`localStorage` content is a partial map from the storage keys of the instance to
raw strings; `JSON.parse` is an oracle `String → Except String Json`
(`.error` = the parse threw). Each `try { ... } catch { }` block of the
source is embedded as a `match` on the `Except`. -/

/-- A parsed JSON value. Numbers are `ℚ` (no arithmetic is done on them). -/
inductive Json
  | null
  | bool (b : Bool)
  | num (q : ℚ)
  | str (s : String)
  | arr (elems : List Json)
  | obj (fields : List (String × Json))

/-- JS truthiness of a JSON value: `false`, `0`, `""` and `null` are falsy. -/
def jsTruthy : Json → Bool
  | .null => false
  | .bool b => b
  | .num q => !(q = 0)
  | .str s => !(s = "")
  | .arr _ => true
  | .obj _ => true

/-- Model of `if (saved...)` on a raw `localStorage.getItem` result: the slice is read
only when the item exists and is a truthy (non-empty) string. -/
def truthyStr : Option String → Option String
  | none => none
  | some s => if s = "" then none else some s

/-- The raw strings stored under the eleven storage keys of this instance
(`createStorageKeys`); `none` = `localStorage.getItem` returned `null`. -/
structure LocalContent where
  pos : Option String := none
  col : Option String := none
  con : Option String := none
  mode : Option String := none
  hidden : Option String := none
  lines : Option String := none
  badges : Option String := none
  lineColor : Option String := none
  lineOpacity : Option String := none
  componentOpacity : Option String := none
  statuses : Option String := none

/-- Result of the localStorage `loadState`: validated slices carry their
checked type, unvalidated slices (blind `JSON.parse` casts in the source)
carry the raw parsed JSON. `none` = slice omitted from the partial state. -/
structure LoadedLocal where
  position : Option Json := none
  connections : Option Json := none
  displayMode : Option DisplayMode := none
  isHidden : Option Json := none
  showLines : Option Json := none
  showBadges : Option Json := none
  lineColor : Option Json := none
  lineOpacity : Option ℚ := none
  componentOpacity : Option ℚ := none
  statuses : Option (List (Int × TodoStatus)) := none

/-- Model of the per-slice try/catch around `JSON.parse(saved)` for the slices the
source stores without validation (position, connections, hidden, lines,
badges, lineColor). -/
def readJsonSlice (parse : String → Except String Json) (v : Option String) :
    Option Json :=
  match truthyStr v with
  | none => none
  | some s =>
    match parse s with
    | .ok j => some j
    | .error _ => none

/-- The shared opacity validation of `loadState`:
the parsed value must be a JS number with `opacity >= 0 && opacity <= 1` — used
verbatim for both `lineOpacity` and `componentOpacity` in the source. -/
def readOpacitySlice (parse : String → Except String Json) (v : Option String) :
    Option ℚ :=
  match truthyStr v with
  | none => none
  | some s =>
    match parse s with
    | .error _ => none
    | .ok (.num q) => if 0 ≤ q ∧ q ≤ 1 then some q else none
    | .ok _ => none

/-- The `displayMode` read of `loadState`: a truthy `mode` record wins when
it parses to one of the three literals; otherwise (no `mode` record) a
truthy legacy `col` record maps truthy → `compact`, falsy → `full`. -/
def readDisplayModeSlice (parse : String → Except String Json)
    (mode col : Option String) : Option DisplayMode :=
  match truthyStr mode with
  | some s =>
    match parse s with
    | .ok (.str "full") => some .full
    | .ok (.str "compact") => some .compact
    | .ok (.str "minimal") => some .minimal
    | _ => none
  | none =>
    match truthyStr col with
    | some s =>
      match parse s with
      | .ok j => some (if jsTruthy j then .compact else .full)
      | .error _ => none
    | none => none

/-- Accumulate leading decimal digits; `none` when no digit was seen (NaN). -/
def takeDigitsVal : List Char → Nat → Bool → Option Nat
  | [], acc, seen => if seen then some acc else none
  | c :: rest, acc, seen =>
    if c.isDigit then takeDigitsVal rest (acc * 10 + (c.toNat - 48)) true
    else if seen then some acc else none

/-- JS `parseInt(s, 10)`: skip leading whitespace, optional sign, then the
longest prefix of decimal digits; `NaN` (here `none`) when there is none. -/
def parseIntJs (s : String) : Option Int :=
  match s.trim.toList with
  | '-' :: rest => (takeDigitsVal rest 0 false).map (fun n => -(n : Int))
  | '+' :: rest => (takeDigitsVal rest 0 false).map (fun n => (n : Int))
  | cs => (takeDigitsVal cs 0 false).map (fun n => (n : Int))

/-- JS `Object.entries` on a parsed JSON value: throws on `null`, yields the
fields of an object, index/element pairs for arrays and strings, and `[]`
for the remaining primitives. -/
def jsObjectEntries : Json → Except String (List (String × Json))
  | .null => .error "TypeError: Object.entries called on null"
  | .obj fs => .ok fs
  | .arr xs => .ok (xs.enum.map (fun p => (toString p.1, p.2)))
  | .str s => .ok (s.toList.enum.map (fun p => (toString p.1, Json.str (String.mk [p.2]))))
  | .bool _ => .ok []
  | .num _ => .ok []

/-- The statuses decoding loop of `loadState`: for each entry, keep it when
`parseInt(key, 10)` is not NaN and the value is one of the three status
strings, inserting with `Map.set`. -/
def loadStatuses (j : Json) : Except String (List (Int × TodoStatus)) :=
  (jsObjectEntries j).map (fun entries =>
    entries.foldl (fun acc kv =>
      match parseIntJs kv.1, kv.2 with
      | some idx, .str "todo" => mapSet acc idx .todo
      | some idx, .str "working" => mapSet acc idx .working
      | some idx, .str "done" => mapSet acc idx .done
      | _, _ => acc) [])

/-- The statuses slice of the localStorage `loadState`. -/
def readStatusesSlice (parse : String → Except String Json) (v : Option String) :
    Option (List (Int × TodoStatus)) :=
  match truthyStr v with
  | none => none
  | some s =>
    match parse s with
    | .error _ => none
    | .ok j =>
      match loadStatuses j with
      | .ok m => some m
      | .error _ => none

/-- Source function `loadState` of the localStorage adapter (`storage.ts`): read each slice
independently, omitting any slice whose item is absent/empty or whose parse
or validation fails. -/
def loadStateLocal (parse : String → Except String Json) (c : LocalContent) :
    LoadedLocal where
  position := readJsonSlice parse c.pos
  connections := readJsonSlice parse c.con
  displayMode := readDisplayModeSlice parse c.mode c.col
  isHidden := readJsonSlice parse c.hidden
  showLines := readJsonSlice parse c.lines
  showBadges := readJsonSlice parse c.badges
  lineColor := readJsonSlice parse c.lineColor
  lineOpacity := readOpacitySlice parse c.lineOpacity
  componentOpacity := readOpacitySlice parse c.componentOpacity
  statuses := readStatusesSlice parse c.statuses

/-! ### REST API storage adapter (`createApiVigiloStorage`) -/

/-- Outcome of the `fetchWithTimeout` call of the adapter: a thrown network
error/timeout abort, or an HTTP response with a status code and the result
of `response.json()` (`.error` = the body parse threw). -/
inductive ApiResponse
  | failure (msg : String)
  | response (status : Nat) (body : Except String Json)

/-- Model of `response.ok`: status in the 2xx range. -/
def responseOk (status : Nat) : Bool := 200 ≤ status && status ≤ 299

/-- Property access `j[k]` on a parsed JSON value other than `null`:
the field of an object, else `undefined` (`none`). -/
def objGet (j : Json) (k : String) : Option Json :=
  match j with
  | .obj fs => (fs.find? (fun p => p.1 = k)).map (fun p => p.2)
  | _ => none

/-- JS `a || b` on a possibly-`undefined` JSON value. -/
def jsOrJson (v : Option Json) (d : Json) : Json :=
  match v with
  | none => d
  | some j => if jsTruthy j then j else d

/-- One iterator entry consumed by `new Map(...)`: array entries give
`[0]`/`[1]` (missing elements are `undefined`, approximated by `null`);
plain objects likewise; primitives throw. -/
def mapEntryOfJson : Json → Except String (Json × Json)
  | .arr [] => .ok (.null, .null)
  | .arr [k] => .ok (k, .null)
  | .arr (k :: v :: _) => .ok (k, v)
  | .obj fs =>
    .ok (((fs.find? (fun p => p.1 = "0")).map (fun p => p.2)).getD .null,
         ((fs.find? (fun p => p.1 = "1")).map (fun p => p.2)).getD .null)
  | _ => .error "TypeError: iterator value is not an entry object"

/-- JS `new Map(x)` on a parsed JSON value: only an array of entry objects
succeeds; everything else throws. The result keeps the entry list (the
later-key-wins collapsing of `Map` is immaterial to the properties proved
here). -/
def newMapOfJson : Json → Except String (List (Json × Json))
  | .arr xs => xs.mapM mapEntryOfJson
  | _ => .error "TypeError: value is not iterable"

/-- Result of the API adapter function `loadState`: every slice is the raw JSON
the backend sent (the adapter performs no validation), except `statuses`
which is materialized through `new Map(...)`. -/
structure ApiPartial where
  position : Option Json := none
  connections : Option Json := none
  displayMode : Option Json := none
  isHidden : Option Json := none
  showLines : Option Json := none
  showBadges : Option Json := none
  lineColor : Option Json := none
  lineOpacity : Option Json := none
  componentOpacity : Option Json := none
  statuses : Option (List (Json × Json)) := none

/-- Source function `loadState` of `createApiVigiloStorage`: a thrown fetch, a non-ok
response (404 returns `{}` directly, other statuses throw into the catch),
a failing body parse, `null` data (property access throws), or a throwing
`new Map(data.statuses)` all yield the empty partial `{}`; otherwise each
slice is `data.<slice>` verbatim, with `connections` defaulted to `[]` and
`statuses` to an empty map when absent or falsy. -/
def loadStateApi (resp : ApiResponse) : ApiPartial :=
  match resp with
  | .failure _ => {}
  | .response status body =>
    if responseOk status then
      match body with
      | .error _ => {}
      | .ok .null => {}
      | .ok data =>
        let statusesResult : Except String (List (Json × Json)) :=
          match objGet data "statuses" with
          | some sj => if jsTruthy sj then newMapOfJson sj else .ok []
          | none => .ok []
        match statusesResult with
        | .error _ => {}
        | .ok pairs =>
          { position := objGet data "position"
            connections := some (jsOrJson (objGet data "connections") (.arr []))
            displayMode := objGet data "displayMode"
            isHidden := objGet data "isHidden"
            showLines := objGet data "showLines"
            showBadges := objGet data "showBadges"
            lineColor := objGet data "lineColor"
            lineOpacity := objGet data "lineOpacity"
            componentOpacity := objGet data "componentOpacity"
            statuses := some pairs }
    else
      {}

/-! ### Connection point editing (`VigiloCore`, mousemove during edit) -/

/-- The connection-editing `onMove` handler: find the connection being
edited; spread it with the new `targetPosition`; when the original holds a
truthy `targetSelector`, delete `targetSelector` and `targetLabel`; then
write back `filter-out ++ [updated]` through `setConnections`. When no
connection matches the edited index the handler returns without writing. -/
def editConnectionMove (editingConnection : Int) (mouse : Pos) (w : StoreWorld) :
    StoreWorld :=
  match w.state.connections.find? (fun c => c.todoIndex = editingConnection) with
  | none => w
  | some conn =>
    let updated : Connection :=
      if (truthyStr conn.targetSelector).isSome then
        { conn with targetPosition := some mouse, targetSelector := none,
                    targetLabel := none }
      else
        { conn with targetPosition := some mouse }
    setConnections
      ((w.state.connections.filter (fun c => ¬ c.todoIndex = editingConnection))
        ++ [updated]) w

/-! ### Frame projections and concrete scenario helpers -/

/-- All state slices except `position`. -/
def restPosition (s : VigiloState) :=
  (s.connections, s.displayMode, s.isHidden, s.showLines, s.showBadges,
   s.lineColor, s.lineOpacity, s.componentOpacity, s.statuses)

/-- All state slices except `connections`. -/
def restConnections (s : VigiloState) :=
  (s.position, s.displayMode, s.isHidden, s.showLines, s.showBadges,
   s.lineColor, s.lineOpacity, s.componentOpacity, s.statuses)

/-- All state slices except `displayMode`. -/
def restDisplayMode (s : VigiloState) :=
  (s.position, s.connections, s.isHidden, s.showLines, s.showBadges,
   s.lineColor, s.lineOpacity, s.componentOpacity, s.statuses)

/-- All state slices except `isHidden`. -/
def restHidden (s : VigiloState) :=
  (s.position, s.connections, s.displayMode, s.showLines, s.showBadges,
   s.lineColor, s.lineOpacity, s.componentOpacity, s.statuses)

/-- All state slices except `showLines`. -/
def restShowLines (s : VigiloState) :=
  (s.position, s.connections, s.displayMode, s.isHidden, s.showBadges,
   s.lineColor, s.lineOpacity, s.componentOpacity, s.statuses)

/-- All state slices except `showBadges`. -/
def restShowBadges (s : VigiloState) :=
  (s.position, s.connections, s.displayMode, s.isHidden, s.showLines,
   s.lineColor, s.lineOpacity, s.componentOpacity, s.statuses)

/-- All state slices except `lineColor`. -/
def restLineColor (s : VigiloState) :=
  (s.position, s.connections, s.displayMode, s.isHidden, s.showLines,
   s.showBadges, s.lineOpacity, s.componentOpacity, s.statuses)

/-- All state slices except `lineOpacity`. -/
def restLineOpacity (s : VigiloState) :=
  (s.position, s.connections, s.displayMode, s.isHidden, s.showLines,
   s.showBadges, s.lineColor, s.componentOpacity, s.statuses)

/-- All state slices except `componentOpacity`. -/
def restComponentOpacity (s : VigiloState) :=
  (s.position, s.connections, s.displayMode, s.isHidden, s.showLines,
   s.showBadges, s.lineColor, s.lineOpacity, s.statuses)

/-- All state slices except `statuses`. -/
def restStatuses (s : VigiloState) :=
  (s.position, s.connections, s.displayMode, s.isHidden, s.showLines,
   s.showBadges, s.lineColor, s.lineOpacity, s.componentOpacity)

/-- The JSON serialization of a display mode, as persisted by
`saveDisplayMode` and matched by `loadState`. -/
def modeLit : DisplayMode → String
  | .full => "full"
  | .compact => "compact"
  | .minimal => "minimal"

/-- The rational `0.05`, written in normal form so that kernel
evaluation does not hit `Nat.gcd`. -/
def q005 : ℚ := ⟨1, 20, by norm_num, by norm_num⟩

/-- The rational `0.1` in normal form. -/
def q01 : ℚ := ⟨1, 10, by norm_num, by norm_num⟩

/-- The rational `0.3` in normal form. -/
def q03 : ℚ := ⟨3, 10, by norm_num, by norm_num⟩

/-- The rational `1.5` in normal form. -/
def q15 : ℚ := ⟨3, 2, by norm_num, by norm_num⟩

/-- Stub of `JSON.parse` on the handful of raw strings appearing in the concrete
scenarios below, agreeing with the real parser on each of them. -/
def jsonParseStub (s : String) : Except String Json :=
  if s = "0.05" then .ok (.num q005)
  else if s = "1.5" then .ok (.num q15)
  else if s = "0.3" then .ok (.num q03)
  else if s = "true" then .ok (.bool true)
  else if s = "false" then .ok (.bool false)
  else if s = "\x22abc\x22" then .ok (.str "abc")
  else if s = "\x22compact\x22" then .ok (.str "compact")
  else if s = "\x22full\x22" then .ok (.str "full")
  else if s = "\x22minimal\x22" then .ok (.str "minimal")
  else .error "SyntaxError: unexpected token"

/-! ## Lemmas about the JS `Map.set` model -/

lemma find?_map_set_ne (m : List (Int × TodoStatus)) (i : Int) (s : TodoStatus)
    (j : Int) (hj : j ≠ i) :
    (m.map (fun p => if p.1 = i then (i, s) else p)).find? (fun p => p.1 = j)
      = m.find? (fun p => p.1 = j) := by
  induction m with
  | nil => rfl
  | cons p t ih =>
    simp only [List.map_cons]
    by_cases hpi : p.1 = i
    · rw [if_pos hpi]
      rw [List.find?_cons_of_neg _ (by simp [Ne.symm hj])]
      rw [List.find?_cons_of_neg _ (by simp [hpi, Ne.symm hj])]
      exact ih
    · rw [if_neg hpi]
      by_cases hpj : p.1 = j
      · rw [List.find?_cons_of_pos _ (by simp [hpj]),
          List.find?_cons_of_pos _ (by simp [hpj])]
      · rw [List.find?_cons_of_neg _ (by simp [hpj]),
          List.find?_cons_of_neg _ (by simp [hpj])]
        exact ih

lemma find?_map_set_self (m : List (Int × TodoStatus)) (i : Int) (s : TodoStatus)
    (h : m.any (fun p => p.1 = i) = true) :
    (m.map (fun p => if p.1 = i then (i, s) else p)).find? (fun p => p.1 = i)
      = some (i, s) := by
  induction m with
  | nil => simp at h
  | cons p t ih =>
    simp only [List.map_cons]
    by_cases hpi : p.1 = i
    · rw [if_pos hpi]
      exact List.find?_cons_of_pos _ (by simp)
    · rw [if_neg hpi]
      have ht : t.any (fun p => p.1 = i) = true := by simpa [hpi] using h
      rw [List.find?_cons_of_neg _ (by simp [hpi])]
      exact ih ht

lemma mapGet_mapSet_self (m : List (Int × TodoStatus)) (i : Int) (s : TodoStatus) :
    mapGet (mapSet m i s) i = some s := by
  unfold mapSet
  by_cases h : m.any (fun p => p.1 = i) = true
  · rw [if_pos h]
    unfold mapGet
    rw [find?_map_set_self m i s h]
    rfl
  · rw [if_neg h]
    unfold mapGet
    rw [List.find?_append]
    have hfalse : m.any (fun p => p.1 = i) = false := by
      cases hb : m.any (fun p => p.1 = i) with
      | true => exact absurd hb h
      | false => rfl
    rw [List.find?_eq_none.mpr (List.any_eq_false.mp hfalse)]
    rw [List.find?_cons_of_pos _ (by simp)]
    rfl

lemma mapGet_mapSet_ne (m : List (Int × TodoStatus)) (i : Int) (s : TodoStatus)
    (j : Int) (hj : j ≠ i) :
    mapGet (mapSet m i s) j = mapGet m j := by
  unfold mapSet
  by_cases h : m.any (fun p => p.1 = i) = true
  · rw [if_pos h]
    unfold mapGet
    rw [find?_map_set_ne m i s j hj]
  · rw [if_neg h]
    unfold mapGet
    rw [List.find?_append]
    have hsingle : ([((i : Int), s)].find? (fun p => p.1 = j)) = none := by
      simp [List.find?_cons, Ne.symm hj]
    rw [hsingle]
    simp

/-! ## Lemmas about the unique-`todoIndex` invariant -/

lemma noDupIndex_set {cs : List Connection} {k : Int} {idx : Nat} {nc : Connection}
    (hnd : NoDupIndex cs)
    (hfind : cs.findIdx? (fun c => c.todoIndex = k) = some idx)
    (hk : nc.todoIndex = k) : NoDupIndex (cs.set idx nc) := by
  rw [List.findIdx?_eq_some_iff_getElem] at hfind
  obtain ⟨hlt, hpi, -⟩ := hfind
  have hkey : cs[idx].todoIndex = k := by simpa using hpi
  unfold NoDupIndex at hnd ⊢
  rw [List.pairwise_iff_getElem] at hnd ⊢
  intro a b ha hb hab
  simp only [List.length_set] at ha hb
  rw [List.getElem_set, List.getElem_set]
  by_cases hia : idx = a
  · subst hia
    by_cases hib : idx = b
    · exact absurd hib (Nat.ne_of_lt hab)
    · rw [if_pos rfl, if_neg hib, hk, ← hkey]
      exact hnd idx b ha hb hab
  · by_cases hib : idx = b
    · subst hib
      rw [if_neg hia, if_pos rfl, hk, ← hkey]
      exact hnd a idx ha hb hab
    · rw [if_neg hia, if_neg hib]
      exact hnd a b ha hb hab

lemma noDupIndex_append {cs : List Connection} {k : Int} {nc : Connection}
    (hnd : NoDupIndex cs)
    (hfind : cs.findIdx? (fun c => c.todoIndex = k) = none)
    (hk : nc.todoIndex = k) : NoDupIndex (cs ++ [nc]) := by
  have hall := List.findIdx?_eq_none_iff.mp hfind
  unfold NoDupIndex at hnd ⊢
  rw [List.pairwise_append]
  refine ⟨hnd, List.pairwise_singleton _ _, ?_⟩
  intro a ha b hb
  simp only [List.mem_singleton] at hb
  subst hb
  rw [hk]
  intro heq
  have hfa := hall a ha
  simp [heq] at hfa

/-! ## Claim theorems -/

/-- C4: `setPosition(p, {persist:false})` updates the in-memory position to
`p` and notifies subscribers once, but appends no storage write; a plain
`setPosition(p)` additionally appends exactly one `savePosition` call. -/
theorem C4_setPosition_persist_flag :
    ∀ (p : Pos) (w : StoreWorld),
      ((setPosition p (some false) w).state.position = p ∧
        (setPosition p (some false) w).emits = w.emits + 1 ∧
        (setPosition p (some false) w).writes = w.writes) ∧
      ((setPosition p none w).state.position = p ∧
        (setPosition p none w).emits = w.emits + 1 ∧
        (setPosition p none w).writes = w.writes ++ [StorageOp.savePosition p]) := by
  intro p w
  constructor
  · exact ⟨rfl, rfl, rfl⟩
  · refine ⟨?_, ?_, ?_⟩ <;> simp [setPosition, setState]

/-- C6: `setConnections(X)` twice in a row yields the same state as once,
and `resetStatuses()` leaves `getState().statuses` the empty map. -/
theorem C6_setConnections_idempotent_and_reset_empty :
    ∀ (X : List Connection) (w : StoreWorld),
      (setConnections X (setConnections X w)).state = (setConnections X w).state ∧
      (resetStatuses w).state.statuses = [] := by
  intro X w
  exact ⟨rfl, rfl⟩

/-- C7: `setStatus(index, status)` is exactly `setStatuses` of the current
map with the single entry inserted-or-replaced: the whole observable store
world (state, notifications, storage writes) coincides, and the `Map.set`
model indeed maps the index to the status while leaving all other indices
unchanged. -/
theorem C7_setStatus_refines_setStatuses :
    ∀ (i : Int) (s : TodoStatus) (w : StoreWorld),
      setStatus i s w = setStatuses (mapSet w.state.statuses i s) w ∧
      mapGet (mapSet w.state.statuses i s) i = some s ∧
      ∀ j : Int, j ≠ i →
        mapGet (mapSet w.state.statuses i s) j = mapGet w.state.statuses j := by
  intro i s w
  exact ⟨rfl, mapGet_mapSet_self _ _ _, fun j hj => mapGet_mapSet_ne _ _ _ j hj⟩

/-- C7 witness: concrete instance at index `0`, status `done`, the freshly
constructed store, and other index `1`. -/
theorem C7_setStatus_refines_setStatuses_witness :
    mapGet (mapSet (initWorld {} {}).state.statuses 0 TodoStatus.done) 1
      = mapGet (initWorld {} {}).state.statuses 1 :=
  (C7_setStatus_refines_setStatuses 0 TodoStatus.done (initWorld {} {})).2.2 1
    (by decide)

lemma newConnectionOf_todoIndex (i : Int) (t : AddTarget) (l : Option String) :
    (newConnectionOf i t l).todoIndex = i := by
  cases t <;> rfl

/-- C1 fails as stated: `setConnections` stores its argument verbatim, so a
single call passing two entries that both carry `todoIndex 0` leaves two
entries with the same `todoIndex` in `getState().connections`. -/
theorem C1_setConnections_duplicate_counterexample :
    ((setConnections
        [⟨0, none, none, some ⟨1, 1⟩⟩, ⟨0, none, none, some ⟨2, 2⟩⟩]
        (initWorld {} {})).state.connections.filter
          (fun c => c.todoIndex = 0)).length = 2 ∧
    ¬ NoDupIndex ((setConnections
        [⟨0, none, none, some ⟨1, 1⟩⟩, ⟨0, none, none, some ⟨2, 2⟩⟩]
        (initWorld {} {})).state.connections) := by
  constructor
  · rfl
  · decide

/-- C1 (amended): `setConnections` itself stores the given array verbatim,
duplicates included; the insertion path `addConnection` replaces the
existing entry for a `todoIndex` in place — never appending a second one —
so it preserves at-most-one-connection-per-index, and when an entry for the
index already exists the list length is unchanged. -/
theorem C1_addConnection_unique_index_amended :
    (∀ (cs : List Connection) (w : StoreWorld),
      (setConnections cs w).state.connections = cs) ∧
    (∀ (i : Int) (t : AddTarget) (l : Option String) (w : StoreWorld),
      NoDupIndex w.state.connections →
        NoDupIndex ((addConnection i t l w).state.connections)) ∧
    (∀ (i : Int) (t : AddTarget) (l : Option String) (w : StoreWorld),
      (w.state.connections.findIdx? (fun c => c.todoIndex = i)).isSome →
        (addConnection i t l w).state.connections.length
          = w.state.connections.length) := by
  refine ⟨fun cs w => rfl, ?_, ?_⟩
  · intro i t l w hnd
    cases hfind : w.state.connections.findIdx? (fun c => c.todoIndex = i) with
    | some idx =>
      have hc : (addConnection i t l w).state.connections
          = w.state.connections.set idx (newConnectionOf i t l) := by
        simp only [addConnection, hfind]
        rfl
      rw [hc]
      exact noDupIndex_set hnd hfind (newConnectionOf_todoIndex i t l)
    | none =>
      have hc : (addConnection i t l w).state.connections
          = w.state.connections ++ [newConnectionOf i t l] := by
        simp only [addConnection, hfind]
        rfl
      rw [hc]
      exact noDupIndex_append hnd hfind (newConnectionOf_todoIndex i t l)
  · intro i t l w hsome
    cases hfind : w.state.connections.findIdx? (fun c => c.todoIndex = i) with
    | some idx =>
      have hc : (addConnection i t l w).state.connections
          = w.state.connections.set idx (newConnectionOf i t l) := by
        simp only [addConnection, hfind]
        rfl
      rw [hc, List.length_set]
    | none =>
      rw [hfind] at hsome
      simp at hsome

/-- C1 (amended) witness: adding a freeroam connection for index `0` to a
freshly constructed (duplicate-free) store keeps the invariant. -/
theorem C1_addConnection_unique_index_amended_witness :
    NoDupIndex ((addConnection 0 (AddTarget.position ⟨1, 2⟩) none
      (initWorld {} {})).state.connections) :=
  C1_addConnection_unique_index_amended.2.1 0 (AddTarget.position ⟨1, 2⟩) none
    (initWorld {} {}) (by decide)

/-- C2: hydration is the right-biased merge `defaults ⊕ loadState() ⊕
overrides` — per slice, the overrides value when present, else the
persisted value, else the default — `statuses` is the empty map when
neither source supplies it, and on the example from the spec `lineOpacity`
hydrates to `0.9` over persisted `0.3` over default `0.6`. -/
theorem C2_hydration_right_biased_merge :
    ∀ (saved ov : PartialVigiloState),
      (hydrateState saved ov).position
          = (ov.position.orElse fun _ => saved.position).getD DEFAULT_POSITION ∧
      (hydrateState saved ov).connections
          = (ov.connections.orElse fun _ => saved.connections).getD [] ∧
      (hydrateState saved ov).displayMode
          = (ov.displayMode.orElse fun _ => saved.displayMode).getD .full ∧
      (hydrateState saved ov).isHidden
          = (ov.isHidden.orElse fun _ => saved.isHidden).getD false ∧
      (hydrateState saved ov).showLines
          = (ov.showLines.orElse fun _ => saved.showLines).getD true ∧
      (hydrateState saved ov).showBadges
          = (ov.showBadges.orElse fun _ => saved.showBadges).getD true ∧
      (hydrateState saved ov).lineColor
          = (ov.lineColor.orElse fun _ => saved.lineColor).getD DEFAULT_LINE_COLOR ∧
      (hydrateState saved ov).lineOpacity
          = (ov.lineOpacity.orElse fun _ => saved.lineOpacity).getD DEFAULT_LINE_OPACITY ∧
      (hydrateState saved ov).componentOpacity
          = (ov.componentOpacity.orElse fun _ =>
              saved.componentOpacity).getD DEFAULT_COMPONENT_OPACITY ∧
      (hydrateState saved ov).statuses
          = (ov.statuses.orElse fun _ => saved.statuses).getD [] ∧
      (hydrateState {} {}).statuses = [] ∧
      (hydrateState { lineOpacity := some (3/10) }
          { lineOpacity := some (9/10) }).lineOpacity = 9/10 ∧
      (hydrateState { lineOpacity := some (3/10) } {}).lineOpacity = 3/10 ∧
      (hydrateState {} {}).lineOpacity = 6/10 := by
  intro saved ov
  exact ⟨rfl, rfl, rfl, rfl, rfl, rfl, rfl, rfl, rfl, rfl, rfl, rfl, rfl, rfl⟩

/-- C10: every mutator changes only its own state slice — for each of the
twelve mutators, all slices of `getState()` other than the one the mutator
targets are unchanged (the three statuses mutators target `statuses`). -/
theorem C10_mutators_change_only_their_slice :
    (∀ p o w, restPosition ((setPosition p o w).state) = restPosition w.state) ∧
    (∀ cs w, restConnections ((setConnections cs w).state)
        = restConnections w.state) ∧
    (∀ m w, restDisplayMode ((setDisplayMode m w).state)
        = restDisplayMode w.state) ∧
    (∀ b w, restHidden ((setHidden b w).state) = restHidden w.state) ∧
    (∀ b w, restShowLines ((setShowLines b w).state) = restShowLines w.state) ∧
    (∀ b w, restShowBadges ((setShowBadges b w).state)
        = restShowBadges w.state) ∧
    (∀ c w, restLineColor ((setLineColor c w).state) = restLineColor w.state) ∧
    (∀ q w, restLineOpacity ((setLineOpacity q w).state)
        = restLineOpacity w.state) ∧
    (∀ q w, restComponentOpacity ((setComponentOpacity q w).state)
        = restComponentOpacity w.state) ∧
    (∀ m w, restStatuses ((setStatuses m w).state) = restStatuses w.state) ∧
    (∀ i s w, restStatuses ((setStatus i s w).state) = restStatuses w.state) ∧
    (∀ w, restStatuses ((resetStatuses w).state) = restStatuses w.state) := by
  refine ⟨?_, fun cs w => rfl, fun m w => rfl, fun b w => rfl, fun b w => rfl,
    fun b w => rfl, fun c w => rfl, fun q w => rfl, fun q w => rfl,
    fun m w => rfl, fun i s w => rfl, fun w => rfl⟩
  intro p o w
  simp only [setPosition]
  split <;> rfl

/-! ## Lemmas about the localStorage loadState slices -/

lemma truthyStr_none : truthyStr none = none := rfl

lemma readOpacitySlice_range (parse : String → Except String Json)
    (v : Option String) (q : ℚ) (h : readOpacitySlice parse v = some q) :
    0 ≤ q ∧ q ≤ 1 := by
  unfold readOpacitySlice at h
  split at h
  all_goals try exact Option.noConfusion h
  split at h
  all_goals try exact Option.noConfusion h
  split at h
  all_goals try exact Option.noConfusion h
  rename_i hr
  obtain rfl : _ = q := Option.some.inj h
  exact hr

lemma readOpacitySlice_nonnum (parse : String → Except String Json)
    (v : Option String) (s : String) (j : Json)
    (hv : truthyStr v = some s) (hp : parse s = .ok j) (hj : ∀ q, j ≠ .num q) :
    readOpacitySlice parse v = none := by
  cases j with
  | num q => exact absurd rfl (hj q)
  | null => simp only [readOpacitySlice, hv, hp]
  | bool b => simp only [readOpacitySlice, hv, hp]
  | str s2 => simp only [readOpacitySlice, hv, hp]
  | arr xs => simp only [readOpacitySlice, hv, hp]
  | obj fs => simp only [readOpacitySlice, hv, hp]

lemma readOpacitySlice_out_of_range (parse : String → Except String Json)
    (v : Option String) (s : String) (q : ℚ)
    (hv : truthyStr v = some s) (hp : parse s = .ok (.num q))
    (hr : ¬(0 ≤ q ∧ q ≤ 1)) : readOpacitySlice parse v = none := by
  simp only [readOpacitySlice, hv, hp]
  rw [if_neg hr]

lemma readJsonSlice_error (parse : String → Except String Json)
    (v : Option String) (s e : String)
    (hv : truthyStr v = some s) (hp : parse s = .error e) :
    readJsonSlice parse v = none := by
  simp only [readJsonSlice, hv, hp]

lemma readOpacitySlice_error (parse : String → Except String Json)
    (v : Option String) (s e : String)
    (hv : truthyStr v = some s) (hp : parse s = .error e) :
    readOpacitySlice parse v = none := by
  simp only [readOpacitySlice, hv, hp]

lemma readStatusesSlice_error (parse : String → Except String Json)
    (v : Option String) (s e : String)
    (hv : truthyStr v = some s) (hp : parse s = .error e) :
    readStatusesSlice parse v = none := by
  simp only [readStatusesSlice, hv, hp]

lemma readDisplayModeSlice_error (parse : String → Except String Json)
    (mode col : Option String) (s e : String)
    (hv : truthyStr mode = some s) (hp : parse s = .error e) :
    readDisplayModeSlice parse mode col = none := by
  simp only [readDisplayModeSlice, hv, hp]

/-- C3 fails as stated: the localStorage adapter accepts a persisted
`componentOpacity` of `0.05`, which lies outside the declared range of the slice
`[0.1, 1]`, instead of omitting it. -/
theorem C3_componentOpacity_range_counterexample :
    (loadStateLocal jsonParseStub
        { componentOpacity := some "0.05" }).componentOpacity = some q005 ∧
    q005 < q01 ∧ q005 = 1/20 ∧ q01 = 1/10 := by
  refine ⟨by decide, by decide, ?_, ?_⟩
  · rw [q005, Rat.mk'_eq_divInt, Rat.divInt_eq_div]
    norm_num
  · rw [q01, Rat.mk'_eq_divInt, Rat.divInt_eq_div]
    norm_num

/-- C3 (amended): the localStorage adapter validates both numeric slices
against `[0, 1]` — not `[0.1, 1]` for `componentOpacity` — omitting
non-numeric and out-of-`[0,1]` parsed values; the API adapter performs no
numeric validation at all and returns whatever the backend sent. -/
theorem C3_numeric_validation_amended :
    (∀ (parse : String → Except String Json) (c : LocalContent) (q : ℚ),
      (loadStateLocal parse c).lineOpacity = some q → 0 ≤ q ∧ q ≤ 1) ∧
    (∀ (parse : String → Except String Json) (c : LocalContent) (q : ℚ),
      (loadStateLocal parse c).componentOpacity = some q → 0 ≤ q ∧ q ≤ 1) ∧
    (∀ (parse : String → Except String Json) (c : LocalContent) (s : String)
        (j : Json),
      truthyStr c.lineOpacity = some s → parse s = .ok j → (∀ q, j ≠ .num q) →
        (loadStateLocal parse c).lineOpacity = none) ∧
    (∀ (parse : String → Except String Json) (c : LocalContent) (s : String)
        (q : ℚ),
      truthyStr c.componentOpacity = some s → parse s = .ok (.num q) →
        ¬(0 ≤ q ∧ q ≤ 1) → (loadStateLocal parse c).componentOpacity = none) ∧
    (loadStateApi (.response 200
        (.ok (.obj [("lineOpacity", .num q15)])))).lineOpacity
      = some (.num q15) := by
  refine ⟨?_, ?_, ?_, ?_, rfl⟩
  · intro parse c q h
    exact readOpacitySlice_range parse c.lineOpacity q h
  · intro parse c q h
    exact readOpacitySlice_range parse c.componentOpacity q h
  · intro parse c s j hv hp hj
    exact readOpacitySlice_nonnum parse c.lineOpacity s j hv hp hj
  · intro parse c s q hv hp hr
    exact readOpacitySlice_out_of_range parse c.componentOpacity s q hv hp hr

/-- C3 (amended) witness: a persisted `lineOpacity` of `0.3` passes the
`[0,1]` validation and therefore lies in `[0,1]`. -/
theorem C3_numeric_validation_amended_witness :
    (0 : ℚ) ≤ q03 ∧ q03 ≤ 1 :=
  C3_numeric_validation_amended.1 jsonParseStub { lineOpacity := some "0.3" }
    q03 (by decide)

/-- C5: `loadState` never propagates a failure — for each slice of the
localStorage adapter, a throwing `JSON.parse` on the stored string of that slice
leaves that slice omitted (`none`); with an oracle that throws on every
string the whole result is the empty partial; and the API adapter returns
the empty partial on a thrown fetch, a throwing body parse, and any
non-success status. -/
theorem C5_loadState_failures_omitted :
    (∀ (parse : String → Except String Json) (c : LocalContent) (s e : String),
      truthyStr c.pos = some s → parse s = .error e →
        (loadStateLocal parse c).position = none) ∧
    (∀ (parse : String → Except String Json) (c : LocalContent) (s e : String),
      truthyStr c.con = some s → parse s = .error e →
        (loadStateLocal parse c).connections = none) ∧
    (∀ (parse : String → Except String Json) (c : LocalContent) (s e : String),
      truthyStr c.hidden = some s → parse s = .error e →
        (loadStateLocal parse c).isHidden = none) ∧
    (∀ (parse : String → Except String Json) (c : LocalContent) (s e : String),
      truthyStr c.lines = some s → parse s = .error e →
        (loadStateLocal parse c).showLines = none) ∧
    (∀ (parse : String → Except String Json) (c : LocalContent) (s e : String),
      truthyStr c.badges = some s → parse s = .error e →
        (loadStateLocal parse c).showBadges = none) ∧
    (∀ (parse : String → Except String Json) (c : LocalContent) (s e : String),
      truthyStr c.lineColor = some s → parse s = .error e →
        (loadStateLocal parse c).lineColor = none) ∧
    (∀ (parse : String → Except String Json) (c : LocalContent) (s e : String),
      truthyStr c.lineOpacity = some s → parse s = .error e →
        (loadStateLocal parse c).lineOpacity = none) ∧
    (∀ (parse : String → Except String Json) (c : LocalContent) (s e : String),
      truthyStr c.componentOpacity = some s → parse s = .error e →
        (loadStateLocal parse c).componentOpacity = none) ∧
    (∀ (parse : String → Except String Json) (c : LocalContent) (s e : String),
      truthyStr c.mode = some s → parse s = .error e →
        (loadStateLocal parse c).displayMode = none) ∧
    (∀ (parse : String → Except String Json) (c : LocalContent) (s e : String),
      truthyStr c.statuses = some s → parse s = .error e →
        (loadStateLocal parse c).statuses = none) ∧
    (∀ c : LocalContent, loadStateLocal (fun s => .error s) c = {}) ∧
    (∀ msg, loadStateApi (.failure msg) = {}) ∧
    (∀ (st : Nat) (e : String), responseOk st = true →
      loadStateApi (.response st (.error e)) = {}) ∧
    (∀ (st : Nat) (body : Except String Json), responseOk st = false →
      loadStateApi (.response st body) = {}) := by
  refine ⟨?_, ?_, ?_, ?_, ?_, ?_, ?_, ?_, ?_, ?_, ?_, fun msg => rfl, ?_, ?_⟩
  · exact fun parse c s e hv hp => readJsonSlice_error parse c.pos s e hv hp
  · exact fun parse c s e hv hp => readJsonSlice_error parse c.con s e hv hp
  · exact fun parse c s e hv hp => readJsonSlice_error parse c.hidden s e hv hp
  · exact fun parse c s e hv hp => readJsonSlice_error parse c.lines s e hv hp
  · exact fun parse c s e hv hp => readJsonSlice_error parse c.badges s e hv hp
  · exact fun parse c s e hv hp => readJsonSlice_error parse c.lineColor s e hv hp
  · exact fun parse c s e hv hp =>
      readOpacitySlice_error parse c.lineOpacity s e hv hp
  · exact fun parse c s e hv hp =>
      readOpacitySlice_error parse c.componentOpacity s e hv hp
  · exact fun parse c s e hv hp =>
      readDisplayModeSlice_error parse c.mode c.col s e hv hp
  · exact fun parse c s e hv hp => readStatusesSlice_error parse c.statuses s e hv hp
  · intro c
    have h1 : ∀ v, readJsonSlice (fun s => (Except.error s : Except String Json)) v = none := by
      intro v
      cases v with
      | none => rfl
      | some s =>
        simp only [readJsonSlice, truthyStr]
        split <;> rfl
    have h2 : ∀ v, readOpacitySlice (fun s => (Except.error s : Except String Json)) v = none := by
      intro v
      cases v with
      | none => rfl
      | some s =>
        simp only [readOpacitySlice, truthyStr]
        split <;> rfl
    have h3 : ∀ v, readStatusesSlice (fun s => (Except.error s : Except String Json)) v = none := by
      intro v
      cases v with
      | none => rfl
      | some s =>
        simp only [readStatusesSlice, truthyStr]
        split <;> rfl
    have h4 : ∀ m col, readDisplayModeSlice (fun s => (Except.error s : Except String Json))
        m col = none := by
      intro m col
      unfold readDisplayModeSlice
      split
      · rfl
      · split <;> rfl
    simp only [loadStateLocal, h1, h2, h3, h4]
  · intro st e hok
    simp only [loadStateApi, hok]
    rfl
  · intro st body hok
    simp only [loadStateApi, hok]
    rfl

/-- C5 witness: a stored position string on which the parse throws leaves
the position slice omitted. -/
theorem C5_loadState_failures_omitted_witness :
    (loadStateLocal (fun s => Except.error s) { pos := some "x" }).position
      = none :=
  C5_loadState_failures_omitted.1 (fun s => Except.error s)
    { pos := some "x" } "x" "x" rfl rfl

/-- C8: when no `displayMode` record exists, a legacy `collapsed` record
parsing to a boolean maps `true → compact` and `false → full`; when a valid
`displayMode` record exists it wins and the legacy record is ignored. -/
theorem C8_legacy_collapsed_flag :
    (∀ (parse : String → Except String Json) (c : LocalContent) (s : String)
        (b : Bool),
      c.mode = none → truthyStr c.col = some s → parse s = .ok (.bool b) →
        (loadStateLocal parse c).displayMode
          = some (if b then DisplayMode.compact else DisplayMode.full)) ∧
    (∀ (parse : String → Except String Json) (c : LocalContent) (s : String)
        (m : DisplayMode),
      truthyStr c.mode = some s → parse s = .ok (.str (modeLit m)) →
        (loadStateLocal parse c).displayMode = some m) := by
  constructor
  · intro parse c s b hmode hcol hparse
    show readDisplayModeSlice parse c.mode c.col = _
    rw [hmode]
    simp only [readDisplayModeSlice, truthyStr_none, hcol, hparse, jsTruthy]
  · intro parse c s m hmode hparse
    show readDisplayModeSlice parse c.mode c.col = _
    simp only [readDisplayModeSlice, hmode, hparse]
    cases m <;> rfl

/-- C8 witness: a legacy `collapsed=true` record with no mode record
hydrates to `compact`; a valid `minimal` mode record wins over the same
legacy record. -/
theorem C8_legacy_collapsed_flag_witness :
    (loadStateLocal jsonParseStub { col := some "true" }).displayMode
        = some DisplayMode.compact ∧
    (loadStateLocal jsonParseStub { mode := some "\x22minimal\x22", col := some "true" }).displayMode
      = some DisplayMode.minimal :=
  ⟨C8_legacy_collapsed_flag.1 jsonParseStub { col := some "true" } "true" true
      rfl rfl rfl,
    C8_legacy_collapsed_flag.2 jsonParseStub
      { mode := some "\x22minimal\x22", col := some "true" }
      "\x22minimal\x22" DisplayMode.minimal rfl rfl⟩

/-- C9: dragging the endpoint of a connection that holds a (truthy)
`targetSelector` writes back, via `setConnections`, a connection whose
`targetPosition` is the new mouse coordinates and whose `targetSelector`
and `targetLabel` are removed — a DOM-anchored connection is silently
converted to a free-floating one on edit. -/
theorem C9_edit_converts_selector_to_freeroam :
    ∀ (idx : Int) (mouse : Pos) (w : StoreWorld) (conn : Connection) (s : String),
      w.state.connections.find? (fun c => c.todoIndex = idx) = some conn →
      conn.targetSelector = some s → s ≠ "" →
      (editConnectionMove idx mouse w).state.connections
        = (w.state.connections.filter (fun c => ¬ c.todoIndex = idx))
          ++ [⟨conn.todoIndex, none, none, some mouse⟩] := by
  intro idx mouse w conn s hfind hsel hs
  obtain ⟨ti, ts, tl, tp⟩ := conn
  have hsel2 : ts = some s := hsel
  subst hsel2
  simp only [editConnectionMove, hfind]
  simp [truthyStr, hs, setConnections, setState]

/-- C9 witness: editing the single selector-anchored connection of a store
replaces it by a freeroam connection at the new mouse position. -/
theorem C9_edit_converts_selector_to_freeroam_witness :
    (editConnectionMove 0 ⟨5, 6⟩
      (setConnections [⟨0, some "#app", some "App", none⟩]
        (initWorld {} {}))).state.connections
      = [⟨0, none, none, some ⟨5, 6⟩⟩] := by
  have h := C9_edit_converts_selector_to_freeroam 0 ⟨5, 6⟩
    (setConnections [⟨0, some "#app", some "App", none⟩] (initWorld {} {}))
    ⟨0, some "#app", some "App", none⟩ "#app" rfl rfl (by decide)
  simpa using h

end Vigilo
